import Mathlib

/-
Verification of fmlopack.io.nro45m against its specification.

The definitions below are a shallow embedding of the Python source
`src/io/nro45m.py`.  Numeric data is modelled with `Rat` (or `Real`
where the source takes a real power), numpy buffers created by
`np.empty` are modelled as `Nat -> Option Rat` maps with `none`
standing for an uninitialized cell, and the line-oriented loops of the
source become structural recursions over lists.
-/

namespace Nro45m

/-! ### Raw log demultiplexer (`Nro45mFmlo._sam45log`, lines 212-233)

A dumped line is modelled as the list of its whitespace tokens after
numeric conversion; the source keeps only `line.split()[3:]`, modelled
by `List.drop 3`.  The four target buffers `zero`, `r`, `sky`, `on`
are `np.empty` arrays, modelled as optional-valued maps. -/

structure DemuxState where
  bufZero : Nat → Option ℚ
  bufRef : Nat → Option ℚ
  bufSky : Nat → Option ℚ
  bufOn : Nat → Nat → Option ℚ

/-- Slice assignment `buf[s : s + len(vals)] = vals`. -/
def writeSlice : (Nat → Option ℚ) → Nat → List ℚ → (Nat → Option ℚ)
  | buf, _, [] => buf
  | buf, s, v :: vs => writeSlice (fun n => if n = s then some v else buf n) (s + 1) vs

/-- One iteration of the demultiplexing loop of `_sam45log` for the line
with running index `idx`:
`i, j = idx // array_max, idx % array_max`, then the slice
`[scan_wid*j : scan_wid*(j+1)]` of the buffer selected by `i` is
assigned the data tokens of the line. -/
def demuxStep (M W L : Nat) (idx : Nat) (line : List ℚ) (st : DemuxState) : DemuxState :=
  let i := idx / M
  let j := idx % M
  let ts := line.drop 3
  if i = 0 then { st with bufZero := writeSlice st.bufZero (W * j) ts }
  else if i = 1 then { st with bufRef := writeSlice st.bufRef (W * j) ts }
  else if i = 2 then { st with bufSky := writeSlice st.bufSky (W * j) ts }
  else if 3 ≤ i ∧ i < L + 3 then
    { st with bufOn := fun row =>
        if row = i - 3 then writeSlice (st.bufOn (i - 3)) (W * j) ts else st.bufOn row }
  else st

def demuxAux (M W L : Nat) : Nat → List (List ℚ) → DemuxState → DemuxState
  | _, [], st => st
  | k, l :: ls, st => demuxAux M W L (k + 1) ls (demuxStep M W L k l st)

def demuxInit : DemuxState :=
  ⟨fun _ => none, fun _ => none, fun _ => none, fun _ _ => none⟩

/-- The whole demultiplexing loop `for (idx, line) in enumerate(f)`. -/
def demux (M W L : Nat) (lines : List (List ℚ)) : DemuxState :=
  demuxAux M W L 0 lines demuxInit

/-! ### Calibration (`_sam45log`, lines 236-237)

`att = np.repeat(sam[IFATT][array_use], scan_wid)` and
`tsys = tamb / (10**(0.1*att) * ((r-zero)/(sky-zero)) - 1)`.
The boolean-mask selection `xs[mask]` is `maskSelect`; `np.repeat`
with factor `W` sends channel `k` to element `k / W`. -/

def maskSelect (xs : List ℝ) (mask : List Bool) : List ℝ :=
  ((xs.zip mask).filter (fun p => p.2)).map Prod.fst

/-- Per-channel attenuation after mask selection and `np.repeat`. -/
noncomputable def attBroadcast (ifatt : List ℝ) (arrayFlags : List ℤ) (W k : Nat) : ℝ :=
  (maskSelect ifatt (arrayFlags.map (fun a => decide (a = 1)))).getD (k / W) 0

/-- Channel `k` of the system-temperature vector. -/
noncomputable def tsysChan (tamb : ℝ) (ifatt : List ℝ) (arrayFlags : List ℤ) (W : Nat)
    (rbuf zbuf sbuf : Nat → ℝ) (k : Nat) : ℝ :=
  tamb / ((10 : ℝ) ^ ((0.1 : ℝ) * attBroadcast ifatt arrayFlags W k) *
    ((rbuf k - zbuf k) / (sbuf k - zbuf k)) - 1)

/-! ### Scan segments (`_sam45log`, lines 246-287)

The configuration values the segment loop reads from `sam45dict`. -/

structure Sam45Seg where
  ARRAY : List ℤ
  SIDBD_TYP : List String
  OBS_BAND : List ℚ
  REST_FREQ : List ℚ

/-- `np.where(array_use)[0]`: configuration indices of the in-use
elements, in order. -/
def whereUse (arr : List ℤ) : List Nat :=
  ((arr.enum.filter (fun p => decide (p.2 = 1))).map Prod.fst)

/-- `array_max = sam[ARRAY].sum()`. -/
def arrayMax (arr : List ℤ) : Nat :=
  arr.sum.toNat

/-- `v[W*j : W*(j+1)]`. -/
def elemSlice (v : List ℚ) (W j : Nat) : List ℚ :=
  (v.drop (W * j)).take W

/-- `scan[:, W*j : W*(j+1)]`. -/
def scanSlice (scan : List (List ℚ)) (W j : Nat) : List (List ℚ) :=
  scan.map (fun row => elemSlice row W j)

/-- One scan segment (`ImageHDU`) with the header keys the claims are
about.  `bandwid`, `restfreq`, `sideband` are read at the loop index
`j` (source lines 271-273), while `extname` uses the configuration
index `idx` (line 266). -/
structure Segment where
  extname : String
  segData : List (List ℚ)
  segTsys : List ℚ
  bandwid : ℚ
  restfreq : ℚ
  sideband : String

def mkSegment (sam : Sam45Seg) (j idx : Nat) (d : List (List ℚ) × List ℚ) : Segment :=
  { extname := "A" ++ toString (idx + 1)
  , segData := d.1
  , segTsys := d.2
  , bandwid := sam.OBS_BAND.getD j 0
  , restfreq := sam.REST_FREQ.getD j 0
  , sideband := sam.SIDBD_TYP.getD j "" }

/-- The sideband branch of the segment loop (lines 251-261): the
`hdu_data`/`hdu_tsys` locals after iteration `j`, given their value
`st` from the previous iteration (`none` = still unbound).  The branch
condition reads `sam[SIDBD_TYP][idx]` at the configuration index;
with neither `USB` nor `LSB` no branch assigns, so the locals keep
their previous value. -/
def segStep (sam : Sam45Seg) (scan : List (List ℚ)) (tsys : List ℚ) (W j : Nat)
    (st : Option (List (List ℚ) × List ℚ)) : Option (List (List ℚ) × List ℚ) :=
  let idx := (whereUse sam.ARRAY).getD j 0
  if sam.SIDBD_TYP.getD idx "" = "USB" then
    some (scanSlice scan W j, elemSlice tsys W j)
  else if sam.SIDBD_TYP.getD idx "" = "LSB" then
    some ((scanSlice scan W j).map List.reverse, (elemSlice tsys W j).reverse)
  else st

/-- The `ImageHDU` appended at iteration `j` (`none` when `hdu_data`
is unbound, which in the source is a `NameError`). -/
def emittedSegment (sam : Sam45Seg) (scan : List (List ℚ)) (tsys : List ℚ) (W j : Nat)
    (st : Option (List (List ℚ) × List ℚ)) : Option Segment :=
  (segStep sam scan tsys W j st).map (mkSegment sam j ((whereUse sam.ARRAY).getD j 0))

def segLoopAux (sam : Sam45Seg) (scan : List (List ℚ)) (tsys : List ℚ) (W : Nat)
    (sel : List Nat) : List Nat → Option (List (List ℚ) × List ℚ) → List (Option Segment)
  | [], _ => []
  | j :: js, st =>
    if (whereUse sam.ARRAY).getD j 0 ∈ sel then
      emittedSegment sam scan tsys W j st ::
        segLoopAux sam scan tsys W sel js (segStep sam scan tsys W j st)
    else segLoopAux sam scan tsys W sel js st

/-- The whole segment loop `for j in range(array_max)` with the
selected configuration indices `sel` (`array_idx` in the source). -/
def sam45Segments (sam : Sam45Seg) (scan : List (List ℚ)) (tsys : List ℚ) (W : Nat)
    (sel : List Nat) : List (Option Segment) :=
  segLoopAux sam scan tsys W sel (List.range (arrayMax sam.ARRAY)) none

/-- `self[array_id]`: container lookup by extension name. -/
def hduLookup (segs : List Segment) (name : String) : Option Segment :=
  segs.find? (fun s => s.extname == name)

/-! ### Scan extraction (`fmscan`, lines 78-106)

The frequency-window computation.  `scan_wid = NAXIS1 / binning`
(Python 2 integer division), `chan_wid = BANDWID / scan_wid`, the
modulation-log slice is `[time_offset+3 : time_offset+scan_len+3]`
(a Python slice, hence clamped), and the window of each row is the static
window shifted by `chan_fm * chan_wid` with `chan_fm = FREQFM /
chan_wid`. -/
def fmscanFreqRange (restfreq bandwid : ℚ) (naxis1 binning cutedge timeOffset scanLen : Nat)
    (freqfm : List ℚ) : List (ℚ × ℚ) :=
  let scanWid : Nat := naxis1 / binning
  let chanWid : ℚ := bandwid / (scanWid : ℚ)
  let slice := (freqfm.drop (timeOffset + 3)).take scanLen
  let freqMin : ℚ := restfreq - (1/2 : ℚ) * ((scanWid : ℚ) - 2 * (cutedge : ℚ) - 1) * chanWid
  let freqMax : ℚ := restfreq + (1/2 : ℚ) * ((scanWid : ℚ) - 2 * (cutedge : ℚ) - 1) * chanWid
  slice.map (fun F => (freqMin + (F / chanWid) * chanWid, freqMax + (F / chanWid) * chanWid))

/-! ### Scratch cleanup (`_sam45log`, lines 217-233)

The `try ... finally` around reading the dumped file.  The `finally`
body is `f.close(); shutil.rmtree(dump_dir)`; when `builtins.open`
raised, the local `f` is unbound and `f.close()` itself raises,
aborting the `finally` body before `rmtree` runs. -/

inductive FinallyStmt where
  | closeF
  | rmtreeDir
deriving DecidableEq

/-- Whether a statement of the `finally` body raises, given whether
`f = builtins.open(dump_file)` succeeded (bound `f`). -/
def stmtRaises (fBound : Bool) : FinallyStmt → Bool
  | .closeF => !fBound
  | .rmtreeDir => false

/-- Python `finally` semantics: statements run in order until one
raises. -/
def runStmts (fBound : Bool) : List FinallyStmt → List FinallyStmt
  | [] => []
  | s :: rest => if stmtRaises fBound s then [] else s :: runStmts fBound rest

def sam45logFinallyBody : List FinallyStmt :=
  [FinallyStmt.closeF, FinallyStmt.rmtreeDir]

/-- Whether the scratch directory is removed on the exit path
determined by `openSucceeded`. -/
def scratchRemoved (openSucceeded : Bool) : Bool :=
  decide (FinallyStmt.rmtreeDir ∈ runStmts openSucceeded sam45logFinallyBody)

/-! ### Configuration-log parsing (`_obstable`, lines 140-158)

String primitives, written as structural recursions over the
character list so that concrete inputs evaluate. -/

def splitOnCharAux (sep : Char) : List Char → List Char → List String
  | [], acc => [String.mk acc.reverse]
  | c :: cs, acc =>
    if c = sep then String.mk acc.reverse :: splitOnCharAux sep cs []
    else splitOnCharAux sep cs (c :: acc)

/-- Python `str.split(sep)` for a one-character separator. -/
def splitOnChar (sep : Char) (s : String) : List String :=
  splitOnCharAux sep s.toList []

/-- Substring containment. -/
def containsSub (needle : List Char) : List Char → Bool
  | [] => needle.isPrefixOf []
  | c :: cs => needle.isPrefixOf (c :: cs) || containsSub needle cs

/-- `re.search` anchored at the line start, for a literal pattern. -/
def startsWithStr (pre s : String) : Bool :=
  pre.toList.isPrefixOf s.toList

def digitVal (c : Char) : Option Nat :=
  if c.isDigit then some (c.toNat - 48) else none

def parseNatAux : List Char → Nat → Option Nat
  | [], acc => some acc
  | c :: cs, acc =>
    match digitVal c with
    | none => none
    | some d => parseNatAux cs (acc * 10 + d)

/-- Python `int(token)` for an optionally signed decimal token. -/
def parseIntStr (s : String) : Option ℤ :=
  match s.toList with
  | [] => none
  | '-' :: rest =>
    match rest with
    | [] => none
    | _ => (parseNatAux rest 0).map (fun n => -(n : ℤ))
  | l => (parseNatAux l 0).map (fun n => (n : ℤ))

/-- Python `str.split()` on single spaces (empty tokens dropped). -/
def pysplit (s : String) : List String :=
  (splitOnChar ' ' s).filter (fun t => !(t == ""))

/-- The character set given to `strip` at source line 155: both
parentheses and the apostrophe (U+0027). -/
def stripSet : List Char :=
  ['(', ')', Char.ofNat 39]

/-- Python `str.strip(chars)`: remove the characters of the set from
both ends. -/
def stripBoth (s : String) : String :=
  String.mk (((s.toList.dropWhile (fun ch => stripSet.contains ch)).reverse.dropWhile
    (fun ch => stripSet.contains ch)).reverse)

/-- The stop test of the loop: the line contains the marker word
`Initialize`. -/
def isStopLine (line : String) : Bool :=
  containsSub "Initialize".toList line.toList

/-- The eight recognized `SET` prefixes and their category tags. -/
def keyTypeOf (line : String) : Option String :=
  if startsWithStr "SET SAM45" line then some "SAM"
  else if startsWithStr "SET ANT" line then some "ANT"
  else if startsWithStr "SET MRG" line then some "MRG"
  else if startsWithStr "SET RXT" line then some "RXT"
  else if startsWithStr "SET IFATT" line then some "ATT"
  else if startsWithStr "SET GRPTRK" line then some "GRP"
  else if startsWithStr "SET SYNTHE_H" line then some "SYH"
  else if startsWithStr "SET SYNTHE_E" line then some "SYE"
  else none

/-- The format `{:0>3}` applied to `idx`: decimal digits left-padded
with zeros to width 3. -/
def pad3 (n : Nat) : String :=
  String.mk (List.replicate (3 - (toString n).length) '0') ++ toString n

/-- The stored item: token 3 of the line, an equals sign, and token 4
with the `stripSet` characters stripped (source line 155). -/
def obstableItem (line : String) : String :=
  (pysplit line).getD 2 "" ++ "=" ++ stripBoth ((pysplit line).getD 3 "")

/-- The header-building loop of `_obstable`, carrying the shared
running index `idx`. -/
def obstableLoop : Nat → List String → List (String × String)
  | _, [] => []
  | idx, line :: rest =>
    if isStopLine line then []
    else
      match keyTypeOf line with
      | none => obstableLoop idx rest
      | some kt => (kt ++ "-" ++ pad3 idx, obstableItem line) :: obstableLoop (idx + 1) rest

def obstableEntries (lines : List String) : List (String × String) :=
  obstableLoop 0 lines

/-- Restatement of the parse following the specification text: truncate
at the first stop line, keep the lines matching a prefix, give the
`n`-th matching line the key `TAG-NNN` and the stripped `key=value`
item. -/
def obstableSpecEntries (lines : List String) : List (String × String) :=
  (((lines.takeWhile (fun l => !(isStopLine l))).filterMap
    (fun l => (keyTypeOf l).map (fun kt => (kt, l)))).enum).map
    (fun p => (p.2.1 ++ "-" ++ pad3 p.1, obstableItem p.2.2))

/-! ### Configuration dictionary decoder
(`_sam45dict`, lines 162-179, and `_sam45dict_config`, lines 386-423) -/

inductive SamDtype where
  | dInt
  | dFloat
deriving DecidableEq

/-- The fixed per-key `dtype` table of `_sam45dict_config`. -/
def sam45cfgDtypeTable : List (String × SamDtype) :=
  [("INTEG_TIME", .dInt), ("CALB_INT", .dInt), ("IPTIM", .dFloat), ("FREQ_INTVAL", .dInt),
   ("VELO", .dFloat), ("MAP_POS", .dInt), ("FREQ_SW", .dInt), ("MULT_OFF", .dFloat),
   ("MULT_NUM", .dInt), ("REF_NUM", .dInt), ("REST_FREQ", .dFloat), ("OBS_FREQ", .dFloat),
   ("FREQ_IF1", .dFloat), ("OBS_BAND", .dFloat), ("ARRAY", .dInt), ("IFATT", .dInt),
   ("FQDAT_F0", .dFloat), ("FQDAT_FQ", .dFloat), ("FQDAT_CH", .dInt), ("SRC_POS", .dFloat),
   ("CH_BAND", .dInt), ("CH_RANGE", .dInt), ("QL_RMSLIMIT", .dFloat), ("QL_POINTNUM", .dInt),
   ("BIN_NUM", .dInt), ("N_SPEC_WINDOW_SUB1", .dInt), ("START_CHAN_SUB1", .dInt),
   ("END_CHAN_SUB1", .dInt), ("CHAN_AVG_SUB1", .dInt), ("N_SPEC_WINDOW_SUB2", .dInt),
   ("START_CHAN_SUB2", .dInt), ("END_CHAN_SUB2", .dInt), ("CHAN_AVG_SUB2", .dInt)]

/-- `_sam45dict_config(key, dtype)`; `none` for a key outside the
table (the bare `except: return None` of the source). -/
def sam45dictConfigDtype (key : String) : Option SamDtype :=
  (sam45cfgDtypeTable.find? (fun p => p.1 == key)).map Prod.snd

/-- The fixed per-key `shape` table; only two keys have one. -/
def sam45cfgShapeTable : List (String × (Nat × Nat)) :=
  [("FQDAT_CH", (32, 2)), ("CH_RANGE", (32, 2))]

/-- `_sam45dict_config(key, shape)`. -/
def sam45dictConfigShape (key : String) : Option (Nat × Nat) :=
  (sam45cfgShapeTable.find? (fun p => p.1 == key)).map Prod.snd

/-- Python `float(token)` on plain decimal strings. -/
def parseDec (s : String) : Option ℚ :=
  match splitOnChar '.' s with
  | [a] => (parseIntStr a).map (fun z => (z : ℚ))
  | [a, b] =>
    match parseIntStr a, parseNatAux b.toList 0 with
    | some z, some f =>
      let d : ℚ := (f : ℚ) / 10 ^ b.length
      some (if startsWithStr "-" s then (z : ℚ) - d else (z : ℚ) + d)
    | _, _ => none
  | _ => none

/-- Run `f` on every element, `none` as soon as one application fails
(an exception aborting the loop). -/
def mapOptionAll (f : α → Option β) : List α → Option (List β)
  | [] => some []
  | a :: as =>
    match f a with
    | none => none
    | some b => (mapOptionAll f as).map (fun bs => b :: bs)

/-- A numpy array built by `np.array(item, dtype)`: the dtype decides
the element parse; `dtype=None` on string tokens infers a string
array. -/
inductive SamArr where
  | aInt : List ℤ → SamArr
  | aFloat : List ℚ → SamArr
  | aStr : List String → SamArr

def castTokens : Option SamDtype → List String → Option SamArr
  | some .dInt, toks => (mapOptionAll parseIntStr toks).map SamArr.aInt
  | some .dFloat, toks => (mapOptionAll parseDec toks).map SamArr.aFloat
  | none, toks => some (SamArr.aStr toks)

/-- Split a flat list into `r` rows of `c` entries. -/
def chunkRows (c : Nat) : Nat → List α → List (List α)
  | 0, _ => []
  | r + 1, xs => xs.take c :: chunkRows c r (xs.drop c)

/-- A decoded configuration value as stored in `sam45dict`:
`item.tolist()[0] if len(item)==1 else item`. -/
inductive SamValue where
  | sInt : ℤ → SamValue
  | vInt : List ℤ → SamValue
  | mInt : List (List ℤ) → SamValue
  | sFloat : ℚ → SamValue
  | vFloat : List ℚ → SamValue
  | mFloat : List (List ℚ) → SamValue
  | sStr : String → SamValue
  | vStr : List String → SamValue
  | mStr : List (List String) → SamValue
deriving DecidableEq

/-- `np.array(...).reshape(shape)` followed by the scalar unwrapping.
`reshape(None)` is a ravel (no-op on the 1-D array); a `(r, c)` shape
requires `r*c` entries and yields a matrix, whose `len` is `r`. -/
def finalizeArr : Option (Nat × Nat) → SamArr → Option SamValue
  | none, .aInt zs => some (if zs.length = 1 then .sInt (zs.getD 0 0) else .vInt zs)
  | none, .aFloat qs => some (if qs.length = 1 then .sFloat (qs.getD 0 0) else .vFloat qs)
  | none, .aStr ss => some (if ss.length = 1 then .sStr (ss.getD 0 "") else .vStr ss)
  | some (r, c), .aInt zs =>
    if zs.length = r * c then
      some (if r = 1 then .vInt ((chunkRows c r zs).getD 0 []) else .mInt (chunkRows c r zs))
    else none
  | some (r, c), .aFloat qs =>
    if qs.length = r * c then
      some (if r = 1 then .vFloat ((chunkRows c r qs).getD 0 []) else .mFloat (chunkRows c r qs))
    else none
  | some (r, c), .aStr ss =>
    if ss.length = r * c then
      some (if r = 1 then .vStr ((chunkRows c r ss).getD 0 []) else .mStr (chunkRows c r ss))
    else none

/-- Decode one header item `KEY=v1,v2,...` as the `_sam45dict` loop
body does: key and tokens from the splits, dtype/shape from the config
tables, then cast, reshape and scalar-unwrap.  `none` models an
exception (missing `=`, malformed number, bad shape). -/
def decodeEntry (body : String) : Option (String × SamValue) :=
  let parts := splitOnChar '=' body
  match parts.get? 1 with
  | none => none
  | some vals =>
    let key := parts.getD 0 ""
    match castTokens (sam45dictConfigDtype key) (splitOnChar ',' vals) with
    | none => none
    | some arr =>
      match finalizeArr (sam45dictConfigShape key) arr with
      | none => none
      | some v => some (key, v)

/-- `_sam45dict`: decode every header entry whose header key matches
`^SAM`, aborting on the first failing entry. -/
def sam45dict (hdr : List (String × String)) : Option (List (String × SamValue)) :=
  mapOptionAll (fun p => decodeEntry p.2) (hdr.filter (fun p => startsWithStr "SAM" p.1))

end Nro45m

namespace Nro45m

/-! ### Lemmas about `writeSlice` -/

theorem writeSlice_lt (vs : List ℚ) : ∀ (buf : Nat → Option ℚ) (s n : Nat), n < s →
    writeSlice buf s vs n = buf n := by
  induction vs with
  | nil => intro buf s n _; rfl
  | cons v vs ih =>
    intro buf s n hn
    show writeSlice (fun m => if m = s then some v else buf m) (s + 1) vs n = buf n
    rw [ih _ (s + 1) n (by omega)]
    simp [Nat.ne_of_lt hn]

theorem writeSlice_ge (vs : List ℚ) : ∀ (buf : Nat → Option ℚ) (s n : Nat),
    s + vs.length ≤ n → writeSlice buf s vs n = buf n := by
  induction vs with
  | nil => intro buf s n _; rfl
  | cons v vs ih =>
    intro buf s n hn
    show writeSlice (fun m => if m = s then some v else buf m) (s + 1) vs n = buf n
    simp only [List.length_cons] at hn
    rw [ih _ (s + 1) n (by omega)]
    have : n ≠ s := by omega
    simp [this]

theorem writeSlice_get (vs : List ℚ) : ∀ (buf : Nat → Option ℚ) (s c : Nat), c < vs.length →
    writeSlice buf s vs (s + c) = some (vs.getD c 0) := by
  induction vs with
  | nil => intro buf s c hc; simp at hc
  | cons v vs ih =>
    intro buf s c hc
    show writeSlice (fun m => if m = s then some v else buf m) (s + 1) vs (s + c) = _
    cases c with
    | zero =>
      rw [writeSlice_lt vs _ (s + 1) (s + 0) (by omega)]
      simp
    | succ c =>
      have : s + (c + 1) = (s + 1) + c := by omega
      rw [this, ih _ (s + 1) c (by simpa using hc)]
      rfl

/-! ### Which line touches which buffer cell -/

theorem demuxStep_bufZero_char (M W L k : Nat) (l : List ℚ) (st : DemuxState) (n : Nat) :
    (demuxStep M W L k l st).bufZero n =
      if k / M = 0 then writeSlice st.bufZero (W * (k % M)) (l.drop 3) n
      else st.bufZero n := by
  simp only [demuxStep]
  split_ifs <;> rfl

theorem demuxStep_bufRef_char (M W L k : Nat) (l : List ℚ) (st : DemuxState) (n : Nat) :
    (demuxStep M W L k l st).bufRef n =
      if k / M = 1 then writeSlice st.bufRef (W * (k % M)) (l.drop 3) n
      else st.bufRef n := by
  simp only [demuxStep]
  split_ifs <;> first | rfl | omega

theorem demuxStep_bufSky_char (M W L k : Nat) (l : List ℚ) (st : DemuxState) (n : Nat) :
    (demuxStep M W L k l st).bufSky n =
      if k / M = 2 then writeSlice st.bufSky (W * (k % M)) (l.drop 3) n
      else st.bufSky n := by
  simp only [demuxStep]
  split_ifs <;> first | rfl | omega

theorem demuxStep_bufOn_char (M W L k : Nat) (l : List ℚ) (st : DemuxState) (r n : Nat)
    (hr : r < L) :
    (demuxStep M W L k l st).bufOn r n =
      if k / M = 3 + r then writeSlice (st.bufOn r) (W * (k % M)) (l.drop 3) n
      else st.bufOn r n := by
  simp only [demuxStep]
  by_cases hv : k / M = 3 + r
  · rw [if_neg (by omega), if_neg (by omega), if_neg (by omega),
      if_pos (by omega : 3 ≤ k / M ∧ k / M < L + 3), if_pos hv]
    dsimp only
    rw [if_pos (by omega : r = k / M - 3)]
    have h3 : k / M - 3 = r := by omega
    rw [h3]
  · rw [if_neg hv]
    by_cases h0 : k / M = 0
    · rw [if_pos h0]
    · rw [if_neg h0]
      by_cases h1 : k / M = 1
      · rw [if_pos h1]
      · rw [if_neg h1]
        by_cases h2 : k / M = 2
        · rw [if_pos h2]
        · rw [if_neg h2]
          by_cases h3 : 3 ≤ k / M ∧ k / M < L + 3
          · rw [if_pos h3]
            dsimp only
            rw [if_neg (by omega : ¬ r = k / M - 3)]
          · rw [if_neg h3]

/-- Traversal of the demultiplexing loop, generic in the buffer: if a
buffer cell `W*e + c` is written exactly by the line with running index
`v*M + e`, the loop leaves it holding the `c`-th data token of that
line. -/
theorem demuxAux_proj (M W L v e c : Nat) (hM : 0 < M) (he : e < M) (hc : c < W)
    (proj : DemuxState → Nat → Option ℚ)
    (hstep : ∀ k (l : List ℚ) (st : DemuxState),
      proj (demuxStep M W L k l st) (W * e + c) =
        if k / M = v then writeSlice (proj st) (W * (k % M)) (l.drop 3) (W * e + c)
        else proj st (W * e + c)) :
    ∀ (ls : List (List ℚ)) (k : Nat) (st : DemuxState), (∀ l ∈ ls, l.length = W + 3) →
      proj (demuxAux M W L k ls st) (W * e + c) =
        if k ≤ v * M + e ∧ v * M + e < k + ls.length
        then some (((ls.getD (v * M + e - k) []).drop 3).getD c 0)
        else proj st (W * e + c) := by
  intro ls
  induction ls with
  | nil =>
    intro k st _
    rw [if_neg (by simp only [List.length_nil]; omega)]
    rfl
  | cons l ls ih =>
    intro k st hlenAll
    have hlenl : l.length = W + 3 := hlenAll l (by simp)
    have hlen' : ∀ x ∈ ls, x.length = W + 3 := fun x hx => hlenAll x (by simp [hx])
    have hts : (l.drop 3).length = W := by simp [hlenl]
    show proj (demuxAux M W L (k + 1) ls (demuxStep M W L k l st)) _ = _
    rw [ih (k + 1) (demuxStep M W L k l st) hlen']
    by_cases hk : k = v * M + e
    · rw [if_neg (by omega)]
      rw [hstep k l st]
      have hdiv : k / M = v := by
        rw [hk, Nat.add_comm, Nat.add_mul_div_right e v hM, Nat.div_eq_of_lt he,
          Nat.zero_add]
      have hmod : k % M = e := by
        rw [hk, Nat.add_comm, Nat.add_mul_mod_self_right, Nat.mod_eq_of_lt he]
      rw [if_pos hdiv, hmod, writeSlice_get (l.drop 3) (proj st) (W * e) c (by omega)]
      rw [if_pos (by simp only [List.length_cons]; omega)]
      have h0 : v * M + e - k = 0 := by omega
      rw [h0, List.getD_cons_zero]
    · have step_eq : proj (demuxStep M W L k l st) (W * e + c) = proj st (W * e + c) := by
        rw [hstep k l st]
        by_cases hdv : k / M = v
        · rw [if_pos hdv]
          have hj : k % M ≠ e := by
            intro hje
            apply hk
            have hdm := Nat.div_add_mod k M
            rw [hdv, hje] at hdm
            rw [← hdm, Nat.mul_comm]
          rcases Nat.lt_or_ge (k % M) e with hlt | hge
          · apply writeSlice_ge
            rw [hts]
            calc W * (k % M) + W = W * (k % M + 1) := by ring
              _ ≤ W * e := Nat.mul_le_mul_left W hlt
              _ ≤ W * e + c := Nat.le_add_right _ _
          · have hgt : e < k % M := lt_of_le_of_ne hge (Ne.symm hj)
            apply writeSlice_lt
            calc W * e + c < W * e + W := by omega
              _ = W * (e + 1) := by ring
              _ ≤ W * (k % M) := Nat.mul_le_mul_left W hgt
        · rw [if_neg hdv]
      rw [step_eq]
      by_cases hC : k + 1 ≤ v * M + e ∧ v * M + e < (k + 1) + ls.length
      · rw [if_pos hC, if_pos (by simp only [List.length_cons]; omega)]
        have hsub : v * M + e - k = (v * M + e - (k + 1)) + 1 := by omega
        rw [hsub, List.getD_cons_succ]
      · rw [if_neg hC, if_neg (by simp only [List.length_cons]; omega)]

/-- C1: demultiplex mapping.  For a dumped stream with `M` in-use array
elements, per-element channel width `W` and scan length `L`, input line
`i` is routed to temporal row `i / M` and element `i % M`; its data
tokens fill channel slice `[W*j, W*(j+1))` of the zero buffer for
temporal row 0, the reference buffer for row 1, the sky buffer for
row 2, and on-source row `i / M - 3` for rows `3 .. L+2`.  In
particular row `r < L`, element `e < M` of the on-source matrix holds
the data tokens of input line `(3+r)*M + e`, exactly. -/
theorem sam45log_demultiplex (M W L : Nat) (lines : List (List ℚ)) (r e c : Nat)
    (hM : 0 < M) (hlen : lines.length = M * (L + 3))
    (hl : ∀ l ∈ lines, l.length = W + 3) (hr : r < L) (he : e < M) (hc : c < W) :
    (demux M W L lines).bufZero (W * e + c) = some (((lines.getD e []).drop 3).getD c 0) ∧
    (demux M W L lines).bufRef (W * e + c) =
      some (((lines.getD (M + e) []).drop 3).getD c 0) ∧
    (demux M W L lines).bufSky (W * e + c) =
      some (((lines.getD (2 * M + e) []).drop 3).getD c 0) ∧
    (demux M W L lines).bufOn r (W * e + c) =
      some (((lines.getD ((3 + r) * M + e) []).drop 3).getD c 0) := by
  have hz := demuxAux_proj M W L 0 e c hM he hc DemuxState.bufZero
    (fun k l st => demuxStep_bufZero_char M W L k l st (W * e + c)) lines 0 demuxInit hl
  have hrf := demuxAux_proj M W L 1 e c hM he hc DemuxState.bufRef
    (fun k l st => demuxStep_bufRef_char M W L k l st (W * e + c)) lines 0 demuxInit hl
  have hsk := demuxAux_proj M W L 2 e c hM he hc DemuxState.bufSky
    (fun k l st => demuxStep_bufSky_char M W L k l st (W * e + c)) lines 0 demuxInit hl
  have hon := demuxAux_proj M W L (3 + r) e c hM he hc (fun st => st.bufOn r)
    (fun k l st => demuxStep_bufOn_char M W L k l st r (W * e + c) hr) lines 0 demuxInit hl
  have hez : e < lines.length := by
    rw [hlen]
    calc e < M := he
      _ = M * 1 := (Nat.mul_one M).symm
      _ ≤ M * (L + 3) := Nat.mul_le_mul_left M (by omega)
  have her : 1 * M + e < lines.length := by
    rw [hlen]
    calc 1 * M + e < M * 2 := by omega
      _ ≤ M * (L + 3) := Nat.mul_le_mul_left M (by omega)
  have hes : 2 * M + e < lines.length := by
    rw [hlen]
    calc 2 * M + e < M * 3 := by omega
      _ ≤ M * (L + 3) := Nat.mul_le_mul_left M (by omega)
  have heo : (3 + r) * M + e < lines.length := by
    rw [hlen]
    calc (3 + r) * M + e < (3 + r) * M + M := by omega
      _ = M * (4 + r) := by ring
      _ ≤ M * (L + 3) := Nat.mul_le_mul_left M (by omega)
  rw [if_pos ⟨by omega, by simpa using hez⟩] at hz
  rw [if_pos ⟨by omega, by simpa using her⟩] at hrf
  rw [if_pos ⟨by omega, by simpa using hes⟩] at hsk
  rw [if_pos ⟨by omega, by simpa using heo⟩] at hon
  simp only [Nat.zero_mul, Nat.zero_add, Nat.sub_zero] at hz
  simp only [Nat.one_mul, Nat.sub_zero] at hrf
  simp only [Nat.sub_zero] at hsk hon
  exact ⟨hz, hrf, hsk, hon⟩

/-- Witness for C1 at `M = 2`, `W = 1`, `L = 1` and a concrete
8-line dump. -/
theorem sam45log_demultiplex_witness :
    (demux 2 1 1 [[0, 0, 0, 10], [0, 0, 0, 11], [0, 0, 0, 20], [0, 0, 0, 21],
        [0, 0, 0, 30], [0, 0, 0, 31], [0, 0, 0, 40], [0, 0, 0, 41]]).bufZero 1 = some 11 ∧
    (demux 2 1 1 [[0, 0, 0, 10], [0, 0, 0, 11], [0, 0, 0, 20], [0, 0, 0, 21],
        [0, 0, 0, 30], [0, 0, 0, 31], [0, 0, 0, 40], [0, 0, 0, 41]]).bufRef 1 = some 21 ∧
    (demux 2 1 1 [[0, 0, 0, 10], [0, 0, 0, 11], [0, 0, 0, 20], [0, 0, 0, 21],
        [0, 0, 0, 30], [0, 0, 0, 31], [0, 0, 0, 40], [0, 0, 0, 41]]).bufSky 1 = some 31 ∧
    (demux 2 1 1 [[0, 0, 0, 10], [0, 0, 0, 11], [0, 0, 0, 20], [0, 0, 0, 21],
        [0, 0, 0, 30], [0, 0, 0, 31], [0, 0, 0, 40], [0, 0, 0, 41]]).bufOn 0 1 = some 41 :=
  sam45log_demultiplex 2 1 1
    [[0, 0, 0, 10], [0, 0, 0, 11], [0, 0, 0, 20], [0, 0, 0, 21],
      [0, 0, 0, 30], [0, 0, 0, 31], [0, 0, 0, 40], [0, 0, 0, 41]] 0 1 0
    (by decide) (by decide) (by decide) (by decide) (by decide) (by decide)

/-- C2: calibration formula.  Every channel of the computed
system-temperature vector equals
`Tamb / (10^(0.1*att) * (ref-zero)/(sky-zero) - 1)` with the
per-element attenuation broadcast across the channel width of the
element;
and at `zero = 0`, `sky = 2`, `ref = 1`, `att = 0`, `Tamb = 293` the
result is `-586`. -/
theorem sam45log_tsys_formula :
    (∀ (tamb : ℝ) (ifatt : List ℝ) (arrayFlags : List ℤ) (W : Nat)
      (rbuf zbuf sbuf : Nat → ℝ) (k : Nat),
      tsysChan tamb ifatt arrayFlags W rbuf zbuf sbuf k =
        tamb / ((10 : ℝ) ^ ((0.1 : ℝ) * attBroadcast ifatt arrayFlags W k) *
          ((rbuf k - zbuf k) / (sbuf k - zbuf k)) - 1)) ∧
    tsysChan 293 [0] [1] 1 (fun _ => 1) (fun _ => 0) (fun _ => 2) 0 = -586 := by
  constructor
  · intro tamb ifatt arrayFlags W rbuf zbuf sbuf k
    rfl
  · have hatt : attBroadcast [0] [1] 1 0 = 0 := rfl
    simp only [tsysChan, hatt]
    rw [show (0.1 : ℝ) * 0 = 0 by ring, Real.rpow_zero]
    norm_num

/-- C3: sideband reversal.  For the element handled at loop index `j`
(configuration index `idx`), an upper-sideband flag stores the scan
slice and Tsys slice in computed channel order, and a lower-sideband
flag stores the exact channel-axis reverse of both. -/
theorem sam45log_sideband_reversal (sam : Sam45Seg) (scan : List (List ℚ)) (tsys : List ℚ)
    (W j : Nat) (st : Option (List (List ℚ) × List ℚ)) :
    (sam.SIDBD_TYP.getD ((whereUse sam.ARRAY).getD j 0) "" = "USB" →
      emittedSegment sam scan tsys W j st =
        some (mkSegment sam j ((whereUse sam.ARRAY).getD j 0)
          (scanSlice scan W j, elemSlice tsys W j))) ∧
    (sam.SIDBD_TYP.getD ((whereUse sam.ARRAY).getD j 0) "" = "LSB" →
      emittedSegment sam scan tsys W j st =
        some (mkSegment sam j ((whereUse sam.ARRAY).getD j 0)
          ((scanSlice scan W j).map List.reverse, (elemSlice tsys W j).reverse))) := by
  constructor
  · intro h
    simp only [emittedSegment, segStep, h]
    rfl
  · intro h
    simp only [emittedSegment, segStep, h]
    rw [if_neg (by decide : ¬ ("LSB" : String) = "USB")]
    rfl

/-- Witness for C3 on one-element configurations, one flagged USB and
one flagged LSB. -/
theorem sam45log_sideband_reversal_witness :
    emittedSegment ⟨[1], ["USB"], [1], [1]⟩ [[3]] [4] 1 0 none =
      some (mkSegment ⟨[1], ["USB"], [1], [1]⟩ 0 0 (scanSlice [[3]] 1 0, elemSlice [4] 1 0)) ∧
    emittedSegment ⟨[1], ["LSB"], [1], [1]⟩ [[3]] [4] 1 0 none =
      some (mkSegment ⟨[1], ["LSB"], [1], [1]⟩ 0 0
        ((scanSlice [[3]] 1 0).map List.reverse, (elemSlice [4] 1 0).reverse)) :=
  ⟨(sam45log_sideband_reversal ⟨[1], ["USB"], [1], [1]⟩ [[3]] [4] 1 0 none).1 (by decide),
   (sam45log_sideband_reversal ⟨[1], ["LSB"], [1], [1]⟩ [[3]] [4] 1 0 none).2 (by decide)⟩

/-- C10: implicit sideband precondition.  When the sideband value of
an element
is neither `USB` nor `LSB`, no branch assigns `hdu_data` or
`hdu_tsys`: the locals keep their previous value, so the emitted
segment is undefined (`none`) for the first such element and silently
reuses the data of the previous element for any later one. -/
theorem sam45log_sideband_fallthrough (sam : Sam45Seg) (scan : List (List ℚ)) (tsys : List ℚ)
    (W j : Nat) (st : Option (List (List ℚ) × List ℚ))
    (h1 : sam.SIDBD_TYP.getD ((whereUse sam.ARRAY).getD j 0) "" ≠ "USB")
    (h2 : sam.SIDBD_TYP.getD ((whereUse sam.ARRAY).getD j 0) "" ≠ "LSB") :
    segStep sam scan tsys W j st = st ∧
    emittedSegment sam scan tsys W j st =
      st.map (mkSegment sam j ((whereUse sam.ARRAY).getD j 0)) := by
  have hs : segStep sam scan tsys W j st = st := by
    simp only [segStep]
    rw [if_neg h1, if_neg h2]
  exact ⟨hs, by simp only [emittedSegment, hs]⟩

/-- Witness for C10 on a one-element configuration flagged `DSB`. -/
theorem sam45log_sideband_fallthrough_witness :
    segStep ⟨[1], ["DSB"], [1], [1]⟩ [[3]] [4] 1 0 none = none ∧
    emittedSegment ⟨[1], ["DSB"], [1], [1]⟩ [[3]] [4] 1 0 none = none := by
  simpa using sam45log_sideband_fallthrough ⟨[1], ["DSB"], [1], [1]⟩ [[3]] [4] 1 0 none
    (by decide) (by decide)

/-- C6: scan-segment metadata consistency fails in the code.  With
`ARRAY = [0, 1]` (first element unused), the single in-use element has
configuration index 1 and loop index 0; the emitted segment is named
`A2` but carries `OBS_BAND[0]`, `REST_FREQ[0]` and `SIDBD_TYP[0]`
(the loop index) instead of the configured values at index 1. -/
theorem sam45log_metadata_index_bug :
    sam45Segments ⟨[0, 1], ["LSB", "USB"], [10, 20], [100, 200]⟩ [[5]] [7] 1 [1] =
      [some { extname := "A2", segData := [[5]], segTsys := [7],
              bandwid := 10, restfreq := 100, sideband := "LSB" }] ∧
    ([(10 : ℚ), 20].getD 1 0 = 20) ∧
    ([(100 : ℚ), 200].getD 1 0 = 200) ∧
    (["LSB", "USB"].getD 1 "" = "USB") :=
  ⟨rfl, rfl, rfl, rfl⟩

/-- C8: the scratch directory is removed when the dumped file could be
opened, but when `builtins.open` fails the `finally` body aborts at
`f.close()` (unbound local) before `shutil.rmtree` runs, so the
scratch directory is not removed on that exit path. -/
theorem sam45log_scratch_cleanup :
    scratchRemoved true = true ∧ scratchRemoved false = false := by
  decide

/-- C4: frequency window.  With `cutedge = 0` and `binning = 1` the
static window brackets `RESTFREQ` symmetrically by
`0.5*(scan_wid-1)*chan_wid`, and row `r` of the final window is the
static window shifted by the `FREQFM` value of that row (applied as
`FREQFM/chan_wid` channels times `chan_wid`). -/
theorem fmscan_freq_window (restfreq bandwid : ℚ) (naxis1 timeOffset scanLen : Nat)
    (freqfm : List ℚ) (r : Nat) (hb : bandwid ≠ 0) (hn : 0 < naxis1)
    (hr : r < scanLen) (hin : timeOffset + 3 + r < freqfm.length) :
    restfreq - (restfreq - (1/2 : ℚ) * ((naxis1 : ℚ) - 1) * (bandwid / (naxis1 : ℚ))) =
      (restfreq + (1/2 : ℚ) * ((naxis1 : ℚ) - 1) * (bandwid / (naxis1 : ℚ))) - restfreq ∧
    (fmscanFreqRange restfreq bandwid naxis1 1 0 timeOffset scanLen freqfm).getD r (0, 0) =
      (restfreq - (1/2 : ℚ) * ((naxis1 : ℚ) - 1) * (bandwid / (naxis1 : ℚ))
         + freqfm.getD (timeOffset + 3 + r) 0,
       restfreq + (1/2 : ℚ) * ((naxis1 : ℚ) - 1) * (bandwid / (naxis1 : ℚ))
         + freqfm.getD (timeOffset + 3 + r) 0) := by
  constructor
  · ring
  · simp only [fmscanFreqRange, Nat.div_one]
    have hcw : bandwid / (naxis1 : ℚ) ≠ 0 :=
      div_ne_zero hb (Nat.cast_ne_zero.mpr (by omega))
    have h1 : ((freqfm.drop (timeOffset + 3)).take scanLen).get? r =
        some (freqfm.getD (timeOffset + 3 + r) 0) := by
      rw [List.get?_take hr, List.get?_drop]
      cases hx : freqfm.get? (timeOffset + 3 + r) with
      | none =>
        have := List.get?_eq_none.mp hx
        omega
      | some x =>
        rw [List.getD_eq_get?, hx]
        rfl
    rw [List.getD_eq_get?, List.get?_map, h1]
    simp only [Option.map_some', Option.getD_some]
    rw [div_mul_cancel₀ _ hcw]
    push_cast
    rw [Prod.mk.injEq]
    exact ⟨by ring, by ring⟩

/-- Witness for C4 at `RESTFREQ = 100`, `BANDWID = 8`, `NAXIS1 = 4`,
`time_offset = 0`, `scan_len = 1` and `FREQFM = 2` for the selected
row. -/
theorem fmscan_freq_window_witness :
    (100 : ℚ) - (100 - (1/2 : ℚ) * (((4 : Nat) : ℚ) - 1) * (8 / ((4 : Nat) : ℚ))) =
      (100 + (1/2 : ℚ) * (((4 : Nat) : ℚ) - 1) * (8 / ((4 : Nat) : ℚ))) - 100 ∧
    (fmscanFreqRange 100 8 4 1 0 0 1 [0, 0, 0, 2]).getD 0 (0, 0) =
      (100 - (1/2 : ℚ) * (((4 : Nat) : ℚ) - 1) * (8 / ((4 : Nat) : ℚ))
         + [0, 0, 0, (2 : ℚ)].getD (0 + 3 + 0) 0,
       100 + (1/2 : ℚ) * (((4 : Nat) : ℚ) - 1) * (8 / ((4 : Nat) : ℚ))
         + [0, 0, 0, (2 : ℚ)].getD (0 + 3 + 0) 0) :=
  fmscan_freq_window 100 8 4 0 1 [0, 0, 0, 2] 0 (by norm_num) (by norm_num)
    (by norm_num) (by norm_num)

/-- C5 counterexample: with a 2-row modulation log, `time_offset = 0`
and `scan_len = 1` we have `time_offset + scan_len + 3 > 2`, yet the
extractor raises nothing: the Python slice clamps and the computation
returns a value (the empty window list) instead of an
`ExtractionError`. -/
theorem fmscan_bounds_counterexample :
    0 + 1 + 3 > ([(1 : ℚ), 2]).length ∧
    fmscanFreqRange 100 8 4 1 0 0 1 [(1 : ℚ), 2] = [] :=
  ⟨by decide, rfl⟩

/-- C5 amended: the extractor performs no bounds check.  The
modulation-log slice is silently clamped to
`min scan_len (len - (time_offset+3))` rows, and an element label
naming no segment makes the container lookup return nothing (the
generic lookup failure of the container library), not an
`ExtractionError`. -/
theorem fmscan_slice_clamped (restfreq bandwid : ℚ)
    (naxis1 binning cutedge timeOffset scanLen : Nat) (freqfm : List ℚ) :
    (fmscanFreqRange restfreq bandwid naxis1 binning cutedge timeOffset scanLen
        freqfm).length = min scanLen (freqfm.length - (timeOffset + 3)) ∧
    ∀ (segs : List Segment) (name : String),
      (∀ s ∈ segs, ¬ s.extname = name) → hduLookup segs name = none := by
  constructor
  · simp [fmscanFreqRange]
  · intro segs name h
    simp only [hduLookup]
    rw [List.find?_eq_none]
    intro s hs
    simpa using h s hs

/-- Witness for the amended C5 statement at the counterexample input
and the empty container. -/
theorem fmscan_slice_clamped_witness :
    (fmscanFreqRange 100 8 4 1 0 0 1 [(1 : ℚ), 2]).length =
      min 1 ([(1 : ℚ), 2].length - (0 + 3)) ∧
    hduLookup [] "A9" = none :=
  ⟨(fmscan_slice_clamped 100 8 4 1 0 0 1 [(1 : ℚ), 2]).1,
   (fmscan_slice_clamped 100 8 4 1 0 0 1 [(1 : ℚ), 2]).2 [] "A9" (by simp)⟩

/-- Any successfully decoded entry keeps the key in front of the `=`
sign, whether or not the key is in the schema tables. -/
theorem decodeEntry_key (body : String) (kv : String × SamValue)
    (h : decodeEntry body = some kv) : kv.1 = (splitOnChar '=' body).getD 0 "" := by
  simp only [decodeEntry] at h
  split at h
  · exact absurd h (by simp)
  · split at h
    · exact absurd h (by simp)
    · split at h
      · exact absurd h (by simp)
      · injection h with h2
        rw [← h2]

/-- The keys coming out of the decode loop are exactly the keys of the
processed entries, in order. -/
theorem mapOptionAll_decode_keys :
    ∀ (l : List (String × String)) (m : List (String × SamValue)),
      mapOptionAll (fun p => decodeEntry p.2) l = some m →
      m.map Prod.fst = l.map (fun p => (splitOnChar '=' p.2).getD 0 "") := by
  intro l
  induction l with
  | nil =>
    intro m h
    cases h
    rfl
  | cons p l ih =>
    intro m h
    simp only [mapOptionAll] at h
    cases hd : decodeEntry p.2 with
    | none => rw [hd] at h; exact absurd h (by simp)
    | some kv =>
      rw [hd] at h
      cases ht : mapOptionAll (fun q => decodeEntry q.2) l with
      | none => rw [ht] at h; exact absurd h (by simp)
      | some ms =>
        rw [ht] at h
        simp only [Option.map_some', Option.some.injEq] at h
        rw [← h]
        simp only [List.map_cons]
        rw [decodeEntry_key p.2 kv hd, ih ms ht]

/-- C7 counterexample: `SRC_NAME` is absent from the schema tables,
yet the decoded mapping contains it (as an inferred string scalar)
instead of omitting it.  The pipeline itself depends on this:
`_sam45log` reads `sam[SRC_NAME]` and `sam[SIDBD_TYP]`, neither of
which is in the table. -/
theorem sam45dict_unknown_key_counterexample :
    sam45dictConfigDtype "SRC_NAME" = none ∧
    sam45dict [("SAM-000", "SRC_NAME=ORION")] =
      some [("SRC_NAME", SamValue.sStr "ORION")] := by
  exact ⟨rfl, rfl⟩

/-- C7 amended: the decoder does not skip schema-unknown keys.  Every
`^SAM`-prefixed header entry contributes its key to the decoded
mapping (keys outside the type/shape table included, decoded with
inferred string type), so the decoded keys are exactly the keys of the
`^SAM` entries that appear in the input. -/
theorem sam45dict_keys_complete (hdr : List (String × String))
    (m : List (String × SamValue)) (h : sam45dict hdr = some m) :
    m.map Prod.fst =
      (hdr.filter (fun p => startsWithStr "SAM" p.1)).map
        (fun p => (splitOnChar '=' p.2).getD 0 "") :=
  mapOptionAll_decode_keys _ m h

/-- Witness for the amended C7 statement: a known key, an unknown key
and one non-`SAM` header entry. -/
theorem sam45dict_keys_complete_witness :
    ([("ARRAY", SamValue.vInt [1, 0]), ("SRC_NAME", SamValue.sStr "ORION")].map Prod.fst) =
      (([("SAM-000", "ARRAY=1,0"), ("SAM-001", "SRC_NAME=ORION"),
        ("XKEY", "FOO=1")].filter (fun p => startsWithStr "SAM" p.1)).map
        (fun p => (splitOnChar '=' p.2).getD 0 "")) :=
  sam45dict_keys_complete
    [("SAM-000", "ARRAY=1,0"), ("SAM-001", "SRC_NAME=ORION"), ("XKEY", "FOO=1")]
    [("ARRAY", SamValue.vInt [1, 0]), ("SRC_NAME", SamValue.sStr "ORION")]
    (by decide)

/-- The obstable loop, for any starting index, produces the enumerated
entries of the matching lines before the stop line. -/
theorem obstableLoop_spec : ∀ (lines : List String) (idx : Nat),
    obstableLoop idx lines =
      (((lines.takeWhile (fun l => !(isStopLine l))).filterMap
        (fun l => (keyTypeOf l).map (fun kt => (kt, l)))).enumFrom idx).map
        (fun p => (p.2.1 ++ "-" ++ pad3 p.1, obstableItem p.2.2)) := by
  intro lines
  induction lines with
  | nil => intro idx; rfl
  | cons l ls ih =>
    intro idx
    cases hstop : isStopLine l with
    | true => simp [obstableLoop, hstop, List.takeWhile_cons]
    | false =>
      cases hkt : keyTypeOf l with
      | none => simp [obstableLoop, hstop, hkt, List.takeWhile_cons, ih idx]
      | some kt =>
        simp [obstableLoop, hstop, hkt, List.takeWhile_cons, List.enumFrom, ih (idx + 1)]

/-- C9 counterexample: for the line `SET SAM45 FOO (1)` the stored
item is `FOO=1` (the 4th token is stripped of surrounding parenthesis
and quote characters), not the claimed concatenation of the 3rd token,
`=` and the raw 4th token, which is `FOO=(1)`. -/
theorem obstable_strip_counterexample :
    obstableEntries ["SET SAM45 FOO (1)"] = [("SAM-000", "FOO=1")] ∧
    (pysplit "SET SAM45 FOO (1)").getD 2 "" ++ "=" ++
      (pysplit "SET SAM45 FOO (1)").getD 3 "" = "FOO=(1)" ∧
    ("FOO=1" : String) ≠ "FOO=(1)" := by
  exact ⟨rfl, rfl, by decide⟩

/-- C9 amended: the obstable parser consumes lines strictly up to the
first line containing `Initialize`; each line matching one of the
eight `SET` prefixes contributes one entry keyed `TAG-NNN` with the
zero-padded running index shared across categories, whose value is the
3rd whitespace token, `=`, and the 4th whitespace token stripped of
surrounding parenthesis and quote characters; other lines contribute
nothing and do not advance the index. -/
theorem obstable_parse (lines : List String) :
    obstableEntries lines = obstableSpecEntries lines :=
  obstableLoop_spec lines 0

end Nro45m
